import Mathlib

/-!
Shallow embedding of the Dino Reserve reservation backend
(`fastapi_main (1).py` and `manage_db.py`).

Times (reservation times, "now") are modelled as minutes on an `Int`
axis; one day is 1440 minutes.  `datetime.now().replace(hour=0, minute=0,
second=0)` becomes `startOfDay`.  Statuses are plain strings, exactly as
in the source (the `status` column is a `String` with no check
constraint, and `ReservationUpdate.status` accepts any string).
The SQLAlchemy session is modelled as an explicit `DB` value threaded
through each handler; `query(...).first()` becomes `List.find?`, and the
database's autoincrement primary key becomes the `next_id` counter.
Each handler returns the post-state paired with `Except HttpError α`:
`HTTPException(status_code, detail)` is the `error` case.
-/

namespace DinoReserve

structure Restaurant where
  id : Nat
  name : String
  location : String
  dino_type : String
deriving Repr, DecidableEq

structure Table where
  id : Nat
  restaurant_id : Nat
  table_number : Nat
  capacity : Nat
deriving Repr, DecidableEq

structure Reservation where
  id : Nat
  table_id : Nat
  customer_name : String
  phone : String
  party_size : Nat
  reservation_time : Int
  status : String
  created_at : Int
deriving Repr, DecidableEq

structure DB where
  restaurants : List Restaurant
  tables : List Table
  reservations : List Reservation
  next_id : Nat
deriving Repr, DecidableEq

/-- `HTTPException(status_code=..., detail=...)`. -/
structure HttpError where
  status_code : Nat
  detail : String
deriving Repr, DecidableEq

/-- Request body of `POST /reservations` (`ReservationCreate`). -/
structure ReservationCreate where
  table_id : Nat
  customer_name : String
  phone : String
  party_size : Nat
  reservation_time : Int
deriving Repr, DecidableEq

/-- Request body of `PUT /reservations/{id}` (`ReservationUpdate`);
`none` models a field absent from the request (`exclude_unset`). -/
structure ReservationUpdate where
  customer_name : Option String
  phone : Option String
  party_size : Option Nat
  reservation_time : Option Int
  status : Option String
deriving Repr, DecidableEq

def tableNotFoundError : HttpError := ⟨404, "Table not found"⟩

def conflictError : HttpError := ⟨400, "Table already reserved for this time"⟩

def capacityError (capacity : Nat) : HttpError :=
  ⟨400, "Party size exceeds table capacity (" ++ toString capacity ++ ")"⟩

def reservationNotFoundError : HttpError := ⟨404, "Reservation not found"⟩

def restaurantNotFoundError : HttpError := ⟨404, "Restaurant not found"⟩

/-- `db.query(Table).filter(Table.id == tid).first()`. -/
def findTable (db : DB) (tid : Nat) : Option Table :=
  db.tables.find? (fun t => t.id == tid)

/-- `db.query(Restaurant).filter(Restaurant.id == rid).first()`. -/
def findRestaurant (db : DB) (rid : Nat) : Option Restaurant :=
  db.restaurants.find? (fun r => r.id == rid)

/-- `db.query(Reservation).filter(Reservation.id == rid).first()`. -/
def findReservation (db : DB) (rid : Nat) : Option Reservation :=
  db.reservations.find? (fun r => r.id == rid)

/-- The conflict pre-check of `create_reservation`
(`fastapi_main (1).py` lines 233-237). -/
def conflictQuery (db : DB) (tid : Nat) (time : Int) : Option Reservation :=
  db.reservations.find? (fun r =>
    r.table_id == tid && r.status == "reserved" && r.reservation_time == time)

/-- `Reservation(**reservation.dict())` with the column defaults
`status="reserved"`, `created_at=utcnow` and the autoincrement key. -/
def newReservation (db : DB) (req : ReservationCreate) (now : Int) : Reservation :=
  { id := db.next_id
    table_id := req.table_id
    customer_name := req.customer_name
    phone := req.phone
    party_size := req.party_size
    reservation_time := req.reservation_time
    status := "reserved"
    created_at := now }

/-- `POST /reservations` (`create_reservation`, lines 224-253):
table-existence check, exact-timestamp conflict check, capacity check,
then insert with status `"reserved"` and server-assigned `created_at`. -/
def create_reservation (db : DB) (req : ReservationCreate) (now : Int) :
    DB × Except HttpError Reservation :=
  match findTable db req.table_id with
  | none => (db, .error tableNotFoundError)
  | some table =>
    match conflictQuery db req.table_id req.reservation_time with
    | some _ => (db, .error conflictError)
    | none =>
      if req.party_size > table.capacity then
        (db, .error (capacityError table.capacity))
      else
        ({ db with reservations := db.reservations ++ [newReservation db req now],
                   next_id := db.next_id + 1 },
         .ok (newReservation db req now))

/-- The `setattr` loop of `update_reservation` (lines 266-268): each
field present in the request body overwrites the row's field. -/
def applyUpdate (upd : ReservationUpdate) (r : Reservation) : Reservation :=
  { r with
    customer_name := upd.customer_name.getD r.customer_name
    phone := upd.phone.getD r.phone
    party_size := upd.party_size.getD r.party_size
    reservation_time := upd.reservation_time.getD r.reservation_time
    status := upd.status.getD r.status }

/-- Mutating the single row returned by `.first()`: rewrite the first
element satisfying `p`, leaving the rest of the list untouched. -/
def setFirst (p : α → Bool) (f : α → α) : List α → List α
  | [] => []
  | x :: xs => if p x then f x :: xs else x :: setFirst p f xs

/-- `PUT /reservations/{id}` (`update_reservation`, lines 255-272). -/
def update_reservation (db : DB) (rid : Nat) (upd : ReservationUpdate) :
    DB × Except HttpError Reservation :=
  match findReservation db rid with
  | none => (db, .error reservationNotFoundError)
  | some r =>
    ({ db with reservations :=
        setFirst (fun x => x.id == rid) (applyUpdate upd) db.reservations },
     .ok (applyUpdate upd r))

/-- `db_reservation.status = "cancelled"` (line 281). -/
def setCancelled (r : Reservation) : Reservation :=
  { r with status := "cancelled" }

/-- `DELETE /reservations/{id}` (`cancel_reservation`, lines 274-283):
sets `status = "cancelled"` unconditionally and returns the message and
the identifier. -/
def cancel_reservation (db : DB) (rid : Nat) :
    DB × Except HttpError (String × Nat) :=
  match findReservation db rid with
  | none => (db, .error reservationNotFoundError)
  | some _ =>
    ({ db with reservations :=
        setFirst (fun x => x.id == rid) setCancelled db.reservations },
     .ok ("Reservation cancelled successfully", rid))

/-- `datetime.now().replace(hour=0, minute=0, second=0)` at minute
granularity: midnight of the day containing `t`. -/
def startOfDay (t : Int) : Int := t - Int.emod t 1440

/-- The per-table active-reservation query of `get_tables`
(lines 196-200): first `reserved` row at or after the start of today. -/
def activeReservationForTable (db : DB) (tid : Nat) (now : Int) :
    Option Reservation :=
  db.reservations.find? (fun r =>
    r.table_id == tid && r.status == "reserved" &&
      decide (startOfDay now ≤ r.reservation_time))

/-- The public reservation fields serialised into `current_reservation`
(lines 204-211). -/
structure ReservationPublic where
  id : Nat
  customer_name : String
  phone : String
  party_size : Nat
  reservation_time : Int
  status : String
deriving Repr, DecidableEq

def publicOfReservation (r : Reservation) : ReservationPublic :=
  ⟨r.id, r.customer_name, r.phone, r.party_size, r.reservation_time, r.status⟩

/-- One entry of the `GET /restaurants/{id}/tables` response
(`TableWithStatus`). -/
structure TableWithStatus where
  id : Nat
  table_number : Nat
  capacity : Nat
  restaurant_id : Nat
  is_reserved : Bool
  current_reservation : Option ReservationPublic
deriving Repr, DecidableEq

/-- The loop body of `get_tables` (lines 194-220) for one table. -/
def tableStatusEntry (db : DB) (now : Int) (t : Table) : TableWithStatus :=
  { id := t.id
    table_number := t.table_number
    capacity := t.capacity
    restaurant_id := t.restaurant_id
    is_reserved := (activeReservationForTable db t.id now).isSome
    current_reservation :=
      (activeReservationForTable db t.id now).map publicOfReservation }

/-- `GET /restaurants/{id}/tables` (`get_tables`, lines 184-222). -/
def get_tables (db : DB) (restaurant_id : Nat) (now : Int) :
    Except HttpError (List TableWithStatus) :=
  match findRestaurant db restaurant_id with
  | none => .error restaurantNotFoundError
  | some _ =>
    .ok ((db.tables.filter (fun t => t.restaurant_id == restaurant_id)).map
      (tableStatusEntry db now))

/-- The per-table active-reservation query of the CLI
`DinoManager.list_tables` (`manage_db.py` lines 107-111): note the lower
bound is `datetime.now()` itself, not the start of today. -/
def cliActiveReservation (db : DB) (tid : Nat) (now : Int) :
    Option Reservation :=
  db.reservations.find? (fun r =>
    r.table_id == tid && r.status == "reserved" &&
      decide (now ≤ r.reservation_time))

/-- One display row of the CLI tables listing (`manage_db.py`
lines 104-121); the reserved/available icon string is modelled as the
`reserved` flag. -/
structure CliTableRow where
  table_number : Nat
  capacity : Nat
  reserved : Bool
  customer : String
deriving Repr, DecidableEq

def cliTableRow (db : DB) (now : Int) (t : Table) : CliTableRow :=
  { table_number := t.table_number
    capacity := t.capacity
    reserved := (cliActiveReservation db t.id now).isSome
    customer :=
      ((cliActiveReservation db t.id now).map
        (fun r => r.customer_name)).getD "-" }

/-- `DinoManager.list_tables` (`manage_db.py` lines 92-128); `none`
models the early return when the restaurant is missing. -/
def list_tables (db : DB) (restaurant_id : Nat) (now : Int) :
    Option (List CliTableRow) :=
  match findRestaurant db restaurant_id with
  | none => none
  | some _ =>
    some ((db.tables.filter (fun t => t.restaurant_id == restaurant_id)).map
      (cliTableRow db now))

/-- `DinoManager.clear_old_reservations` (`manage_db.py` lines 225-247),
confirmed path: delete every reservation with `status == "cancelled"`
and `reservation_time < now - days`. -/
def clear_old_reservations (db : DB) (now : Int) (days : Nat) : DB :=
  let cutoff : Int := now - (days : Int) * 1440
  { db with reservations := db.reservations.filter (fun r =>
      !(decide (r.reservation_time < cutoff) && r.status == "cancelled")) }

/-- Python truthiness of the optional `restaurant_id` query parameter:
`if restaurant_id:` is false for both `None` and `0`. -/
def truthyNat : Option Nat → Bool
  | none => false
  | some n => n != 0

/-- Python truthiness of the optional `status` query parameter:
`if status:` is false for both `None` and the empty string. -/
def truthyStr : Option String → Bool
  | none => false
  | some s => s != ""

/-- `GET /reservations` (`get_all_reservations`, lines 285-301):
inner join of reservations with tables, then the two truthiness-guarded
filters. -/
def get_all_reservations (db : DB) (restaurant_id : Option Nat)
    (status : Option String) : List Reservation :=
  db.reservations.filter (fun r =>
    db.tables.any (fun t =>
      t.id == r.table_id &&
        (!truthyNat restaurant_id || t.restaurant_id == restaurant_id.getD 0)) &&
    (!truthyStr status || r.status == status.getD ""))

/-- The public mutating operations, for reachability statements. -/
inductive Op where
  | create (req : ReservationCreate) (now : Int)
  | update (rid : Nat) (upd : ReservationUpdate)
  | cancel (rid : Nat)
  | cleanup (days : Nat) (now : Int)
deriving Repr

/-- Post-state of one operation (errors leave the store unchanged). -/
def applyOp (db : DB) : Op → DB
  | .create req now => (create_reservation db req now).1
  | .update rid upd => (update_reservation db rid upd).1
  | .cancel rid => (cancel_reservation db rid).1
  | .cleanup days now => clear_old_reservations db now days

def runOps (db : DB) (ops : List Op) : DB := ops.foldl applyOp db

/-- Every reservation's status lies in {reserved, cancelled}. -/
def statusOk (db : DB) : Prop :=
  ∀ r ∈ db.reservations, r.status = "reserved" ∨ r.status = "cancelled"

instance (db : DB) : Decidable (statusOk db) := by
  unfold statusOk; infer_instance

/-- The operation is not an update that supplies a `status` field. -/
def updStatusNone : Op → Bool
  | .update _ upd => upd.status.isNone
  | _ => true

/-! ### Concrete fixtures used by witnesses and counterexamples -/

def exRestaurant1 : Restaurant :=
  ⟨1, "T-Rex Tavern", "Downtown Dino District", "trex"⟩

def exTable1 : Table := ⟨1, 1, 1, 4⟩

/-- One restaurant with a single capacity-4 table and no reservations. -/
def seedDB : DB := ⟨[exRestaurant1], [exTable1], [], 1⟩

def exRes1 : Reservation := ⟨1, 1, "Alice", "555-0001", 2, 100, "reserved", 0⟩

/-- `seedDB` plus one reserved reservation on table 1 at minute 100. -/
def dbWithRes : DB := ⟨[exRestaurant1], [exTable1], [exRes1], 2⟩

def reqAlice : ReservationCreate := ⟨1, "Alice", "555-0001", 2, 100⟩

/-- Same table and timestamp as `exRes1` but one minute later. -/
def reqLater : ReservationCreate := ⟨1, "Erin", "555-0004", 2, 101⟩

/-- Party of five against the capacity-4 table. -/
def reqBig : ReservationCreate := ⟨1, "Carol", "555-0002", 5, 100⟩

/-- Party size exactly equal to the capacity. -/
def reqEq : ReservationCreate := ⟨1, "Dave", "555-0003", 4, 100⟩

/-- `seedDB` plus one cancelled reservation on table 1 at minute 100. -/
def dbWithCancelled : DB :=
  ⟨[exRestaurant1], [exTable1],
   [⟨1, 1, "Alice", "555-0001", 2, 100, "cancelled", 0⟩], 2⟩

/-- An update that only raises the party size (beyond any capacity). -/
def updBig : ReservationUpdate := ⟨none, none, some 99, none, none⟩

/-- Conflicting timestamp and oversized party at once. -/
def reqBigConflict : ReservationCreate := ⟨1, "Frank", "555-0005", 5, 100⟩

/-- An update that writes the status string "pending". -/
def updPending : ReservationUpdate := ⟨none, none, none, none, some "pending"⟩

/-- An update that writes the status string "reserved". -/
def updReserved : ReservationUpdate := ⟨none, none, none, none, some "reserved"⟩

/-! ### Helper lemmas -/

theorem mem_setFirst {p : α → Bool} {f : α → α} {l : List α} {x : α}
    (hx : x ∈ setFirst p f l) :
    x ∈ l ∨ ∃ y ∈ l, p y = true ∧ x = f y := by
  induction l with
  | nil => simp [setFirst] at hx
  | cons a as ih =>
    rw [setFirst] at hx
    by_cases hpa : p a
    · rw [if_pos hpa] at hx
      rcases List.mem_cons.mp hx with h | h
      · exact Or.inr ⟨a, List.mem_cons_self a as, hpa, h⟩
      · exact Or.inl (List.mem_cons_of_mem _ h)
    · rw [if_neg hpa] at hx
      rcases List.mem_cons.mp hx with h | h
      · exact Or.inl (h ▸ List.mem_cons_self a as)
      · rcases ih h with h' | ⟨y, hy, hpy, hxy⟩
        · exact Or.inl (List.mem_cons_of_mem _ h')
        · exact Or.inr ⟨y, List.mem_cons_of_mem _ hy, hpy, hxy⟩

theorem mem_setFirst_of_find? {p : α → Bool} {f : α → α} {l : List α} {r x : α}
    (hf : List.find? p l = some r) (hx : x ∈ setFirst p f l) :
    x ∈ l ∨ x = f r := by
  induction l with
  | nil => simp [setFirst] at hx
  | cons a as ih =>
    rw [setFirst] at hx
    by_cases hpa : p a
    · rw [List.find?_cons_of_pos _ hpa] at hf
      rw [if_pos hpa] at hx
      rcases List.mem_cons.mp hx with h | h
      · exact Or.inr (by rw [h, Option.some.inj hf])
      · exact Or.inl (List.mem_cons_of_mem _ h)
    · rw [List.find?_cons_of_neg _ hpa] at hf
      rw [if_neg hpa] at hx
      rcases List.mem_cons.mp hx with h | h
      · exact Or.inl (h ▸ List.mem_cons_self a as)
      · rcases ih hf h with h' | h'
        · exact Or.inl (List.mem_cons_of_mem _ h')
        · exact Or.inr h'

theorem length_setFirst (p : α → Bool) (f : α → α) (l : List α) :
    (setFirst p f l).length = l.length := by
  induction l with
  | nil => rfl
  | cons a as ih =>
    rw [setFirst]
    by_cases hpa : p a
    · rw [if_pos hpa]
      rfl
    · rw [if_neg hpa]
      simp [ih]

theorem find?_setFirst {p : α → Bool} {f : α → α}
    (hp : ∀ x, p (f x) = p x) (l : List α) :
    List.find? p (setFirst p f l) = (List.find? p l).map f := by
  induction l with
  | nil => rfl
  | cons a as ih =>
    rw [setFirst]
    by_cases hpa : p a
    · rw [if_pos hpa, List.find?_cons_of_pos _ ((hp a).trans hpa),
        List.find?_cons_of_pos _ hpa, Option.map_some']
    · rw [if_neg hpa, List.find?_cons_of_neg _ hpa,
        List.find?_cons_of_neg _ hpa, ih]

theorem setFirst_setFirst {p : α → Bool} {f : α → α}
    (hp : ∀ x, p (f x) = p x) (hf : ∀ x, f (f x) = f x) (l : List α) :
    setFirst p f (setFirst p f l) = setFirst p f l := by
  induction l with
  | nil => rfl
  | cons a as ih =>
    rw [setFirst]
    by_cases hpa : p a
    · rw [if_pos hpa, setFirst, if_pos ((hp a).trans hpa), hf]
    · rw [if_neg hpa, setFirst, if_neg hpa, ih]

theorem conflictQuery_isSome_iff (db : DB) (tid : Nat) (time : Int) :
    (conflictQuery db tid time).isSome = true ↔
      ∃ r ∈ db.reservations, r.table_id = tid ∧ r.status = "reserved" ∧
        r.reservation_time = time := by
  unfold conflictQuery
  rw [List.find?_isSome]
  simp [Bool.and_eq_true, beq_iff_eq, and_assoc]

theorem conflictQuery_eq_none_iff (db : DB) (tid : Nat) (time : Int) :
    conflictQuery db tid time = none ↔
      ¬∃ r ∈ db.reservations, r.table_id = tid ∧ r.status = "reserved" ∧
        r.reservation_time = time := by
  rw [← conflictQuery_isSome_iff, Bool.not_eq_true, Option.not_isSome,
    Option.isNone_iff_eq_none]

theorem capacity_detail_ne_conflict_detail (c : Nat) :
    ("Party size exceeds table capacity (" ++ toString c ++ ")" : String) ≠
      "Table already reserved for this time" := by
  intro h
  have h1 := congrArg String.data h
  rw [String.data_append, String.data_append] at h1
  have h2 : ("Party size exceeds table capacity (" : String).data
      = 'P' :: ("arty size exceeds table capacity (" : String).data := rfl
  have h3 : ("Table already reserved for this time" : String).data
      = 'T' :: ("able already reserved for this time" : String).data := rfl
  rw [h2, h3, List.cons_append, List.cons_append] at h1
  exact absurd (List.cons.inj h1).1 (by decide)

theorem capacityError_ne_conflictError (c : Nat) :
    capacityError c ≠ conflictError := by
  intro h
  exact capacity_detail_ne_conflict_detail c (congrArg HttpError.detail h)

/-! ### Claim theorems -/

/-- C10: in the filtered reservation listing, `restaurant_id = 0` behaves
identically to supplying no restaurant filter at all, and an empty status
string disables the status filter rather than matching no rows: the
filters are applied only for truthy parameter values. -/
theorem c10_falsy_filters_disabled (db : DB) (st : Option String)
    (rid : Option Nat) :
    get_all_reservations db (some 0) st = get_all_reservations db none st ∧
    get_all_reservations db rid (some "") = get_all_reservations db rid none := by
  constructor <;> rfl

/-- C9: retention cleanup keeps a reservation exactly when it is not both
`cancelled` and strictly older than now minus the threshold, so it deletes
precisely the old cancelled rows and keeps every `reserved` row and every
cancelled row at or after the cutoff. -/
theorem c9_cleanup_deletes_exactly_old_cancelled (db : DB) (now : Int)
    (days : Nat) (r : Reservation) :
    r ∈ (clear_old_reservations db now days).reservations ↔
      r ∈ db.reservations ∧
        ¬(r.status = "cancelled" ∧
          r.reservation_time < now - (days : Int) * 1440) := by
  unfold clear_old_reservations
  simp only [List.mem_filter, Bool.not_eq_true', Bool.and_eq_false_iff,
    decide_eq_false_iff_not, beq_eq_false_iff_ne, ne_eq, not_and]
  tauto

/-- C6: whenever admission, update, or cancel returns an error, the store
state after the operation equals the store state before it. -/
theorem c6_error_implies_no_mutation (db : DB) (req : ReservationCreate)
    (now : Int) (uid cid : Nat) (upd : ReservationUpdate)
    (e1 e2 e3 : HttpError) :
    ((create_reservation db req now).2 = .error e1 →
       (create_reservation db req now).1 = db) ∧
    ((update_reservation db uid upd).2 = .error e2 →
       (update_reservation db uid upd).1 = db) ∧
    ((cancel_reservation db cid).2 = .error e3 →
       (cancel_reservation db cid).1 = db) := by
  refine ⟨?_, ?_, ?_⟩
  · unfold create_reservation
    cases findTable db req.table_id with
    | none => intro _; rfl
    | some t =>
      cases conflictQuery db req.table_id req.reservation_time with
      | some c => intro _; rfl
      | none =>
        dsimp only
        by_cases hcap : req.party_size > t.capacity
        · rw [if_pos hcap]
          intro _
          rfl
        · rw [if_neg hcap]
          intro h
          exact absurd h (by simp)
  · unfold update_reservation
    cases findReservation db uid with
    | none => intro _; rfl
    | some r =>
      intro h
      exact absurd h (by simp)
  · unfold cancel_reservation
    cases findReservation db cid with
    | none => intro _; rfl
    | some r =>
      intro h
      exact absurd h (by simp)

/-- Witness for C6 at concrete inputs: on the empty seeded store with no
reservations, a create on a missing table, an update and a cancel on a
missing reservation all error and leave the store unchanged. -/
theorem c6_witness :
    (create_reservation seedDB ⟨9, "Bob", "555", 2, 50⟩ 0).1 = seedDB ∧
    (update_reservation seedDB 7 ⟨none, none, none, none, none⟩).1 = seedDB ∧
    (cancel_reservation seedDB 7).1 = seedDB := by
  have h := c6_error_implies_no_mutation seedDB ⟨9, "Bob", "555", 2, 50⟩ 0 7 7
    ⟨none, none, none, none, none⟩ tableNotFoundError reservationNotFoundError
    reservationNotFoundError
  exact ⟨h.1 rfl, h.2.1 rfl, h.2.2 rfl⟩

/-- C7: cancel fails with NotFound when the identifier does not resolve;
otherwise it unconditionally sets that reservation's status to
`cancelled`, returns the confirmation message with the identifier, and is
idempotent: cancelling again yields exactly the same state and response. -/
theorem c7_cancel_idempotent (db : DB) (rid : Nat) :
    (findReservation db rid = none →
       cancel_reservation db rid = (db, .error reservationNotFoundError)) ∧
    (∀ r, findReservation db rid = some r →
       (cancel_reservation db rid).2 =
         .ok ("Reservation cancelled successfully", rid) ∧
       findReservation (cancel_reservation db rid).1 rid =
         some (setCancelled r) ∧
       (setCancelled r).status = "cancelled") ∧
    cancel_reservation ((cancel_reservation db rid).1) rid =
      cancel_reservation db rid := by
  have hp : ∀ x : Reservation, ((setCancelled x).id == rid) = (x.id == rid) :=
    fun _ => rfl
  have hf : ∀ x : Reservation, setCancelled (setCancelled x) = setCancelled x :=
    fun _ => rfl
  refine ⟨?_, ?_, ?_⟩
  · intro h
    unfold cancel_reservation
    rw [h]
  · intro r h
    have h1 : cancel_reservation db rid =
        ({ db with reservations :=
            setFirst (fun x => x.id == rid) setCancelled db.reservations },
         .ok ("Reservation cancelled successfully", rid)) := by
      unfold cancel_reservation
      rw [h]
    refine ⟨by rw [h1], ?_, rfl⟩
    rw [h1]
    unfold findReservation
    dsimp only
    rw [find?_setFirst hp]
    unfold findReservation at h
    rw [h]
    rfl
  · cases h : findReservation db rid with
    | none =>
      have h1 : cancel_reservation db rid =
          (db, .error reservationNotFoundError) := by
        unfold cancel_reservation
        rw [h]
      rw [h1]
      exact h1
    | some r =>
      have h1 : cancel_reservation db rid =
          ({ db with reservations :=
              setFirst (fun x => x.id == rid) setCancelled db.reservations },
           .ok ("Reservation cancelled successfully", rid)) := by
        unfold cancel_reservation
        rw [h]
      have h4 : findReservation
          { db with reservations :=
              setFirst (fun x => x.id == rid) setCancelled db.reservations }
          rid = some (setCancelled r) := by
        unfold findReservation
        dsimp only
        rw [find?_setFirst hp]
        unfold findReservation at h
        rw [h]
        rfl
      rw [h1]
      unfold cancel_reservation
      rw [h4]
      dsimp only
      rw [setFirst_setFirst hp hf]

/-- C8: on an existing, conflict-free table, a party size exceeding the
capacity fails with CapacityExceeded whose message contains the numeric
capacity value; a party size exactly equal to the capacity passes the
check and the reservation is created. -/
theorem c8_capacity_exceeded (db : DB) (req : ReservationCreate) (now : Int)
    (t : Table) (hft : findTable db req.table_id = some t)
    (hcq : conflictQuery db req.table_id req.reservation_time = none) :
    (req.party_size > t.capacity →
       (create_reservation db req now).2 = .error (capacityError t.capacity) ∧
       ∃ pre post, (capacityError t.capacity).detail =
         pre ++ toString t.capacity ++ post) ∧
    (req.party_size = t.capacity →
       (create_reservation db req now).2 = .ok (newReservation db req now)) := by
  unfold create_reservation
  rw [hft, hcq]
  dsimp only
  constructor
  · intro hgt
    rw [if_pos hgt]
    exact ⟨rfl, "Party size exceeds table capacity (", ")", rfl⟩
  · intro heq
    rw [if_neg (by omega)]

/-- Witness for C8 at concrete inputs: on the seeded store with a
capacity-4 table, a party of five is rejected with the capacity error and
a party of four is admitted. -/
theorem c8_witness :
    (create_reservation seedDB reqBig 0).2 = .error (capacityError 4) ∧
    (create_reservation seedDB reqEq 0).2 = .ok (newReservation seedDB reqEq 0) := by
  have hbig := (c8_capacity_exceeded seedDB reqBig 0 exTable1 rfl rfl).1 (by decide)
  have heq := (c8_capacity_exceeded seedDB reqEq 0 exTable1 rfl rfl).2 rfl
  exact ⟨hbig.1, heq⟩

/-- C1: on an existing table, admission fails with Conflict exactly when
some existing reservation on that table has status `reserved` and a
reservation timestamp equal to the requested one; reservations at any
other timestamp, and cancelled reservations at the identical timestamp,
do not block admission. -/
theorem c1_conflict_iff (db : DB) (req : ReservationCreate) (now : Int)
    (t : Table) (hft : findTable db req.table_id = some t) :
    ((create_reservation db req now).2 = .error conflictError ↔
      ∃ r ∈ db.reservations, r.table_id = req.table_id ∧
        r.status = "reserved" ∧ r.reservation_time = req.reservation_time) := by
  unfold create_reservation
  rw [hft]
  cases hcq : conflictQuery db req.table_id req.reservation_time with
  | some c =>
    dsimp only
    constructor
    · intro _
      have hs : (conflictQuery db req.table_id req.reservation_time).isSome
          = true := by
        rw [hcq]
        rfl
      exact (conflictQuery_isSome_iff db req.table_id req.reservation_time).mp hs
    · intro _
      rfl
  | none =>
    dsimp only
    constructor
    · intro hl
      exfalso
      by_cases hcap : req.party_size > t.capacity
      · rw [if_pos hcap] at hl
        exact capacityError_ne_conflictError t.capacity (Except.error.inj hl)
      · rw [if_neg hcap] at hl
        exact Except.noConfusion hl
    · intro hex
      exfalso
      rw [conflictQuery_eq_none_iff] at hcq
      exact hcq hex

/-- Witness for C1 at concrete inputs: rebooking table 1 at the occupied
minute 100 is rejected with Conflict, while booking one minute later, or
at minute 100 when the existing reservation is cancelled, is not. -/
theorem c1_witness :
    (create_reservation dbWithRes reqAlice 0).2 = .error conflictError ∧
    (create_reservation dbWithRes reqLater 0).2 ≠ .error conflictError ∧
    (create_reservation dbWithCancelled reqAlice 0).2 ≠ .error conflictError := by
  refine ⟨?_, ?_, ?_⟩
  · exact (c1_conflict_iff dbWithRes reqAlice 0 exTable1 rfl).mpr
      ⟨exRes1, by decide, rfl, rfl, rfl⟩
  · intro h
    have hex := (c1_conflict_iff dbWithRes reqLater 0 exTable1 rfl).mp h
    revert hex
    decide
  · intro h
    have hex := (c1_conflict_iff dbWithCancelled reqAlice 0 exTable1 rfl).mp h
    revert hex
    decide

/-- C4: update fails with NotFound and changes nothing when the
identifier does not resolve; otherwise it overwrites exactly the supplied
subset of fields on that reservation, keeps its unsupplied fields and its
identity fields, leaves every other row unchanged, performs no capacity or
conflict re-validation, and returns the full updated row as stored. -/
theorem c4_update_exact_fields (db : DB) (rid : Nat) (upd : ReservationUpdate) :
    (findReservation db rid = none →
       update_reservation db rid upd = (db, .error reservationNotFoundError)) ∧
    (∀ r, findReservation db rid = some r →
       (update_reservation db rid upd).2 = .ok (applyUpdate upd r) ∧
       (applyUpdate upd r).customer_name =
         upd.customer_name.getD r.customer_name ∧
       (applyUpdate upd r).phone = upd.phone.getD r.phone ∧
       (applyUpdate upd r).party_size = upd.party_size.getD r.party_size ∧
       (applyUpdate upd r).reservation_time =
         upd.reservation_time.getD r.reservation_time ∧
       (applyUpdate upd r).status = upd.status.getD r.status ∧
       (applyUpdate upd r).id = r.id ∧
       (applyUpdate upd r).table_id = r.table_id ∧
       (applyUpdate upd r).created_at = r.created_at ∧
       findReservation (update_reservation db rid upd).1 rid =
         some (applyUpdate upd r) ∧
       (update_reservation db rid upd).1.reservations.length =
         db.reservations.length ∧
       ∀ x ∈ (update_reservation db rid upd).1.reservations,
         x ∈ db.reservations ∨ x = applyUpdate upd r) := by
  have hp : ∀ x : Reservation,
      ((applyUpdate upd x).id == rid) = (x.id == rid) := fun _ => rfl
  constructor
  · intro h
    unfold update_reservation
    rw [h]
  · intro r h
    have h1 : update_reservation db rid upd =
        ({ db with reservations :=
            setFirst (fun x => x.id == rid) (applyUpdate upd) db.reservations },
         .ok (applyUpdate upd r)) := by
      unfold update_reservation
      rw [h]
    refine ⟨by rw [h1], rfl, rfl, rfl, rfl, rfl, rfl, rfl, rfl, ?_, ?_, ?_⟩
    · rw [h1]
      unfold findReservation
      dsimp only
      rw [find?_setFirst hp]
      unfold findReservation at h
      rw [h]
      rfl
    · rw [h1]
      exact length_setFirst _ _ _
    · intro x hx
      rw [h1] at hx
      dsimp only at hx
      unfold findReservation at h
      exact mem_setFirst_of_find? h hx

/-- Witness for C4 at a concrete input: updating reservation 1 of
`dbWithRes` to a party of 99 (far beyond the table's capacity of 4)
succeeds without re-validation, changes only the party size, and the
stored row equals the returned row. -/
theorem c4_witness :
    (update_reservation dbWithRes 1 updBig).2 = .ok (applyUpdate updBig exRes1) ∧
    findReservation (update_reservation dbWithRes 1 updBig).1 1 =
      some (applyUpdate updBig exRes1) ∧
    (applyUpdate updBig exRes1).party_size = 99 ∧
    (applyUpdate updBig exRes1).customer_name = "Alice" := by
  have h := (c4_update_exact_fields dbWithRes 1 updBig).2 exRes1 rfl
  exact ⟨h.1, h.2.2.2.2.2.2.2.2.2.1, rfl, rfl⟩

/-- C5: admission checks table existence, then exact-timestamp conflict,
then capacity, in that order — a request that both conflicts and exceeds
capacity reports Conflict, not CapacityExceeded; when all checks pass,
exactly one new row with status `reserved`, the server-assigned creation
timestamp and the assigned identifier is appended, and that full
persisted row is returned. -/
theorem c5_admission_order_and_effect (db : DB) (req : ReservationCreate)
    (now : Int) :
    (findTable db req.table_id = none →
       create_reservation db req now = (db, .error tableNotFoundError)) ∧
    (∀ t, findTable db req.table_id = some t →
      ((∃ r ∈ db.reservations, r.table_id = req.table_id ∧
          r.status = "reserved" ∧ r.reservation_time = req.reservation_time) →
        create_reservation db req now = (db, .error conflictError)) ∧
      ((¬∃ r ∈ db.reservations, r.table_id = req.table_id ∧
          r.status = "reserved" ∧ r.reservation_time = req.reservation_time) →
        req.party_size > t.capacity →
        create_reservation db req now =
          (db, .error (capacityError t.capacity))) ∧
      ((¬∃ r ∈ db.reservations, r.table_id = req.table_id ∧
          r.status = "reserved" ∧ r.reservation_time = req.reservation_time) →
        req.party_size ≤ t.capacity →
        create_reservation db req now =
            ({ db with
                reservations := db.reservations ++ [newReservation db req now],
                next_id := db.next_id + 1 },
             .ok (newReservation db req now)) ∧
          (newReservation db req now).status = "reserved" ∧
          (newReservation db req now).created_at = now ∧
          (newReservation db req now).id = db.next_id ∧
          (newReservation db req now).table_id = req.table_id ∧
          (newReservation db req now).customer_name = req.customer_name ∧
          (newReservation db req now).phone = req.phone ∧
          (newReservation db req now).party_size = req.party_size ∧
          (newReservation db req now).reservation_time =
            req.reservation_time)) := by
  constructor
  · intro h
    unfold create_reservation
    rw [h]
  · intro t hft
    refine ⟨?_, ?_, ?_⟩
    · intro hex
      have hs : (conflictQuery db req.table_id req.reservation_time).isSome
          = true :=
        (conflictQuery_isSome_iff db req.table_id req.reservation_time).mpr hex
      rcases Option.isSome_iff_exists.mp hs with ⟨c, hc⟩
      unfold create_reservation
      rw [hft, hc]
    · intro hnex hcap
      have hn : conflictQuery db req.table_id req.reservation_time = none :=
        (conflictQuery_eq_none_iff db req.table_id req.reservation_time).mpr hnex
      unfold create_reservation
      rw [hft, hn]
      dsimp only
      rw [if_pos hcap]
    · intro hnex hcap
      have hn : conflictQuery db req.table_id req.reservation_time = none :=
        (conflictQuery_eq_none_iff db req.table_id req.reservation_time).mpr hnex
      refine ⟨?_, rfl, rfl, rfl, rfl, rfl, rfl, rfl, rfl⟩
      unfold create_reservation
      rw [hft, hn]
      dsimp only
      rw [if_neg (by omega)]

/-- Witness for C5 at concrete inputs: admission on the seeded store
appends exactly the one new `reserved` row and returns it, and a request
that both conflicts and exceeds the capacity reports Conflict. -/
theorem c5_witness :
    create_reservation seedDB reqAlice 0 =
      ({ seedDB with
          reservations := seedDB.reservations ++ [newReservation seedDB reqAlice 0],
          next_id := seedDB.next_id + 1 },
       .ok (newReservation seedDB reqAlice 0)) ∧
    (newReservation seedDB reqAlice 0).status = "reserved" ∧
    (newReservation seedDB reqAlice 0).id = seedDB.next_id ∧
    create_reservation dbWithRes reqBigConflict 0 =
      (dbWithRes, .error conflictError) := by
  have hok := ((c5_admission_order_and_effect seedDB reqAlice 0).2 exTable1
    rfl).2.2 (by decide) (by decide)
  have hconf := ((c5_admission_order_and_effect dbWithRes reqBigConflict 0).2
    exTable1 rfl).1 ⟨exRes1, by decide, rfl, rfl, rfl⟩
  exact ⟨hok.1, hok.2.1, hok.2.2.2.1, hconf⟩

/-- C2 counterexample: in `dbWithRes` at minute 200, reservation 1 is
`reserved` at minute 100 of the same day, so the day-boundary rule marks
table 1 occupied and the API tables view reports `is_reserved = true`,
yet the CLI tables listing reports the table available — the day-boundary
rule does not govern every tables-listing view. -/
theorem c2_counterexample :
    get_tables dbWithRes 1 200 = .ok [tableStatusEntry dbWithRes 200 exTable1] ∧
    (tableStatusEntry dbWithRes 200 exTable1).is_reserved = true ∧
    list_tables dbWithRes 1 200 = some [cliTableRow dbWithRes 200 exTable1] ∧
    (cliTableRow dbWithRes 200 exTable1).reserved = false ∧
    exRes1 ∈ dbWithRes.reservations ∧ exRes1.table_id = exTable1.id ∧
    exRes1.status = "reserved" ∧ startOfDay 200 ≤ exRes1.reservation_time := by
  refine ⟨rfl, rfl, rfl, rfl, ?_, rfl, rfl, by decide⟩
  decide

/-- C2 (amended): every entry of the API tables view has
`is_reserved = true` exactly when a `reserved` reservation on that table
has its time at or after the start of the current day (and carries the
reservation's public fields exactly then), while the CLI tables listing
instead uses the reference instant itself as the lower bound, so a
reserved reservation earlier today does not mark the table occupied
there. -/
theorem c2_api_day_boundary_cli_now (db : DB) (rid : Nat) (now : Int)
    (l : List TableWithStatus) (hl : get_tables db rid now = .ok l) :
    (∀ e ∈ l,
       (e.is_reserved = true ↔ ∃ r ∈ db.reservations, r.table_id = e.id ∧
          r.status = "reserved" ∧ startOfDay now ≤ r.reservation_time) ∧
       (e.current_reservation = none ↔ e.is_reserved = false)) ∧
    (∀ t ∈ db.tables,
       ((cliTableRow db now t).reserved = true ↔ ∃ r ∈ db.reservations,
          r.table_id = t.id ∧ r.status = "reserved" ∧
            now ≤ r.reservation_time)) := by
  constructor
  · intro e he
    unfold get_tables at hl
    cases hfr : findRestaurant db rid with
    | none =>
      rw [hfr] at hl
      exact absurd hl (by simp)
    | some rest =>
      rw [hfr] at hl
      have hl2 : ((db.tables.filter (fun t => t.restaurant_id == rid)).map
          (tableStatusEntry db now)) = l := Except.ok.inj hl
      rw [← hl2] at he
      rcases List.mem_map.mp he with ⟨t, ht, hte⟩
      subst hte
      constructor
      · unfold tableStatusEntry activeReservationForTable
        dsimp only
        rw [List.find?_isSome]
        simp only [Bool.and_eq_true, beq_iff_eq, decide_eq_true_eq, and_assoc]
      · unfold tableStatusEntry
        dsimp only
        cases activeReservationForTable db t.id now <;> simp
  · intro t ht
    unfold cliTableRow cliActiveReservation
    dsimp only
    rw [List.find?_isSome]
    simp only [Bool.and_eq_true, beq_iff_eq, decide_eq_true_eq, and_assoc]

/-- Witness for C2 (amended) at a concrete input: in the tables view of
`dbWithRes` at minute 200 the single entry is marked reserved, agreeing
with the day-boundary rule at reservation time 100, and the CLI row is
unreserved, agreeing with the now-based rule. -/
theorem c2_witness :
    (tableStatusEntry dbWithRes 200 exTable1).is_reserved = true ∧
    (cliTableRow dbWithRes 200 exTable1).reserved = false := by
  have h := c2_api_day_boundary_cli_now dbWithRes 1 200
    [tableStatusEntry dbWithRes 200 exTable1] rfl
  have h1 := (h.1 (tableStatusEntry dbWithRes 200 exTable1)
    (List.mem_singleton.mpr rfl)).1
  have h2 := h.2 exTable1 (List.mem_singleton.mpr rfl)
  constructor
  · exact h1.mpr ⟨exRes1, by decide, rfl, rfl, by decide⟩
  · rw [Bool.eq_false_iff]
    intro hcontra
    have hex := h2.mp hcontra
    revert hex
    decide

theorem statusOk_applyOp {db : DB} {op : Op} (h : statusOk db)
    (hop : updStatusNone op = true) : statusOk (applyOp db op) := by
  cases op with
  | create req now =>
    show statusOk (create_reservation db req now).1
    unfold create_reservation
    cases findTable db req.table_id with
    | none => exact h
    | some t =>
      cases conflictQuery db req.table_id req.reservation_time with
      | some c => exact h
      | none =>
        dsimp only
        by_cases hcap : req.party_size > t.capacity
        · rw [if_pos hcap]
          exact h
        · rw [if_neg hcap]
          intro r hr
          rcases List.mem_append.mp hr with h1 | h1
          · exact h r h1
          · rw [List.mem_singleton.mp h1]
            left
            rfl
  | update rid upd =>
    have hsn : upd.status = none := by
      unfold updStatusNone at hop
      exact Option.isNone_iff_eq_none.mp hop
    show statusOk (update_reservation db rid upd).1
    unfold update_reservation
    cases findReservation db rid with
    | none => exact h
    | some r0 =>
      dsimp only
      intro x hx
      rcases mem_setFirst hx with h1 | ⟨y, hy, -, hxy⟩
      · exact h x h1
      · have hst : (applyUpdate upd y).status = y.status := by
          unfold applyUpdate
          rw [hsn]
          rfl
        rw [hxy, hst]
        exact h y hy
  | cancel rid =>
    show statusOk (cancel_reservation db rid).1
    unfold cancel_reservation
    cases findReservation db rid with
    | none => exact h
    | some r0 =>
      dsimp only
      intro x hx
      rcases mem_setFirst hx with h1 | ⟨y, hy, -, hxy⟩
      · exact h x h1
      · rw [hxy]
        right
        rfl
  | cleanup days now =>
    show statusOk (clear_old_reservations db now days)
    unfold clear_old_reservations
    intro x hx
    exact h x (List.mem_filter.mp hx).1

theorem statusOk_runOps {db : DB} {ops : List Op} (h : statusOk db)
    (hops : ∀ op ∈ ops, updStatusNone op = true) :
    statusOk (runOps db ops) := by
  induction ops generalizing db with
  | nil => exact h
  | cons op rest ih =>
    exact ih (statusOk_applyOp h (hops op (List.mem_cons_self op rest)))
      (fun o ho => hops o (List.mem_cons_of_mem _ ho))

/-- C3 counterexample: from the seeded store, admission followed by an
update supplying `status = "pending"` reaches a state whose reservation
has a status outside {reserved, cancelled}; and admission, cancel, then an
update supplying `status = "reserved"` turns a cancelled reservation back
into a reserved one, so the reserved-to-cancelled transition is not
irreversible under the public operations. -/
theorem c3_counterexample :
    ¬ statusOk (runOps seedDB [Op.create reqAlice 0, Op.update 1 updPending]) ∧
    (findReservation (runOps seedDB [Op.create reqAlice 0, Op.cancel 1]) 1).map
      Reservation.status = some "cancelled" ∧
    (findReservation (runOps seedDB [Op.create reqAlice 0, Op.cancel 1,
      Op.update 1 updReserved]) 1).map Reservation.status = some "reserved" := by
  refine ⟨by decide, rfl, rfl⟩

/-- C3 (amended): admission always creates reservations with status
`reserved`, and in every state reachable from a store whose statuses all
lie in {reserved, cancelled} by admission, cancel, cleanup, and updates
that do not supply a status field, every reservation's status lies in
{reserved, cancelled}; an update that supplies a status field writes that
arbitrary string directly — it can produce a status outside the set and
revert cancelled to reserved — so the invariant and the irreversibility
of reserved-to-cancelled do not hold for unrestricted updates. -/
theorem c3_status_invariant_restricted (seed : DB) (ops : List Op)
    (hseed : statusOk seed) (hops : ∀ op ∈ ops, updStatusNone op = true) :
    statusOk (runOps seed ops) ∧
    (∀ (db : DB) (req : ReservationCreate) (now : Int) (r : Reservation),
       (create_reservation db req now).2 = .ok r → r.status = "reserved") := by
  refine ⟨statusOk_runOps hseed hops, ?_⟩
  intro db req now r
  unfold create_reservation
  cases findTable db req.table_id with
  | none =>
    intro h
    exact absurd h (by simp)
  | some t =>
    cases conflictQuery db req.table_id req.reservation_time with
    | some c =>
      intro h
      exact absurd h (by simp)
    | none =>
      dsimp only
      by_cases hcap : req.party_size > t.capacity
      · rw [if_pos hcap]
        intro h
        exact absurd h (by simp)
      · rw [if_neg hcap]
        intro h
        rw [← Except.ok.inj h]
        rfl

/-- Witness for C3 (amended) at concrete inputs: a seeded-store trace of
admission, a field-only update, cancel, and cleanup keeps every status in
{reserved, cancelled}. -/
theorem c3_witness :
    statusOk (runOps seedDB [Op.create reqAlice 0, Op.update 1 updBig,
      Op.cancel 1, Op.cleanup 30 0]) := by
  exact (c3_status_invariant_restricted seedDB
    [Op.create reqAlice 0, Op.update 1 updBig, Op.cancel 1, Op.cleanup 30 0]
    (by decide) (by decide)).1

/-- Witness for C7 at a concrete input: cancelling reservation 1 of
`dbWithRes` succeeds with the confirmation message, stores the cancelled
row, and a second cancel reproduces the same state and response. -/
theorem c7_witness :
    (cancel_reservation dbWithRes 1).2 =
      .ok ("Reservation cancelled successfully", 1) ∧
    findReservation (cancel_reservation dbWithRes 1).1 1 =
      some (setCancelled exRes1) ∧
    cancel_reservation ((cancel_reservation dbWithRes 1).1) 1 =
      cancel_reservation dbWithRes 1 := by
  have h := c7_cancel_idempotent dbWithRes 1
  have h2 := h.2.1 exRes1 rfl
  exact ⟨h2.1, h2.2.1, h.2.2⟩

end DinoReserve
